import Mathlib

/-!
Shallow embedding of the pocker signaling server core
(signaling-server/src/services/SessionManager.ts,
signaling-server/src/services/PlayerManager.ts, signaling-server/src/server.ts)
and of the client store computation calculateResults (src/lib/realtime.ts).

JavaScript Map objects and plain-object maps are modelled as association
lists in insertion order; `Map.set` / `obj[k] = v` overwrite the existing
entry in place, `delete obj[k]` removes it.  `new Date()` timestamps are
modelled as an `Int` parameter `now`; generated uuids are passed in as
string parameters.  JavaScript numbers on the vote path are modelled as
rationals.
-/

set_option linter.unusedVariables false

namespace Pocker

/-- Association-list lookup: first entry with the given key (JS Map.get / obj[k]). -/
def alGet {α : Type} (k : String) : List (String × α) → Option α
  | [] => none
  | (k₂, v) :: rest => if k₂ = k then some v else alGet k rest

/-- Association-list write: overwrite the first entry with the key in place,
else append (JS Map.set / obj[k] = v). -/
def alSet {α : Type} (k : String) (v : α) : List (String × α) → List (String × α)
  | [] => [(k, v)]
  | (k₂, v₂) :: rest => if k₂ = k then (k, v) :: rest else (k₂, v₂) :: alSet k v rest

/-- Association-list delete (JS `delete obj[k]`). -/
def alRemove {α : Type} (k : String) : List (String × α) → List (String × α)
  | [] => []
  | (k₂, v) :: rest => if k₂ = k then alRemove k rest else (k₂, v) :: alRemove k rest

/-- Number of occurrences of an element in a list. -/
def countOcc {α : Type} [DecidableEq α] (x : α) : List α → Nat
  | [] => 0
  | y :: l => (if y = x then 1 else 0) + countOcc x l

/-- A submitted vote: `string | number` in the TypeScript types. -/
inductive Vote : Type
  | num (q : ℚ)
  | str (s : String)
deriving DecidableEq, Repr

/-- The numeric content of a vote (`typeof v === number` filter). -/
def numOf : Vote → Option ℚ
  | .num q => some q
  | .str _ => none

/-- JS truthiness of a vote value (0 and the empty string are falsy). -/
def voteTruthy : Vote → Bool
  | .num q => decide (q ≠ 0)
  | .str s => decide (s ≠ "")

/-- Player record (types.ts): vote and hasVoted are optional fields. -/
structure Player : Type where
  id : String
  name : String
  isOnline : Bool
  vote : Option Vote := none
  hasVoted : Option Bool := none
deriving DecidableEq, Repr

/-- VotingRound record: the votes map is keyed by player id. -/
structure VotingRound : Type where
  id : String
  issueName : Option String
  votes : List (String × Vote)
  startTime : Int
  endTime : Option Int := none
  isRevealed : Bool
  average : Option ℚ := none
  hasAgreement : Option Bool := none
deriving DecidableEq, Repr

/-- Session settings, initialised by createSession. -/
structure Settings : Type where
  autoReveal : Bool
  showAverage : Bool
  showCountdown : Bool
  enableFunFeatures : Bool
  whoCanReveal : String
  whoCanManageIssues : String
deriving DecidableEq, Repr

/-- Partial settings patch carried by a SETTINGS_UPDATED event
(the JS spread merge only overrides the provided fields). -/
structure SettingsPatch : Type where
  autoReveal : Option Bool := none
  showAverage : Option Bool := none
  showCountdown : Option Bool := none
  enableFunFeatures : Option Bool := none
  whoCanReveal : Option String := none
  whoCanManageIssues : Option String := none
deriving DecidableEq, Repr

/-- `{ ...session.settings, ...patch }`: fields present in the patch win. -/
def mergeSettings (s : Settings) (p : SettingsPatch) : Settings where
  autoReveal := p.autoReveal.getD s.autoReveal
  showAverage := p.showAverage.getD s.showAverage
  showCountdown := p.showCountdown.getD s.showCountdown
  enableFunFeatures := p.enableFunFeatures.getD s.enableFunFeatures
  whoCanReveal := p.whoCanReveal.getD s.whoCanReveal
  whoCanManageIssues := p.whoCanManageIssues.getD s.whoCanManageIssues

/-- GameSession record. -/
structure GameSession : Type where
  id : String
  name : String
  facilitator : String
  votingSystem : String
  players : List Player
  settings : Settings
  history : List VotingRound
  currentVote : Option VotingRound := none
  createdAt : Int
  lastActivity : Int
deriving DecidableEq, Repr

/-- The SessionManager state: its private `sessions` Map. -/
abbrev Sessions : Type := List (String × GameSession)

/-- SessionManager.getSession. -/
def getSession (m : Sessions) (sessionId : String) : Option GameSession :=
  alGet sessionId m

/-- SessionManager.createSession: fresh session seeded with the facilitator
online, default settings, empty history; uuid passed in as `sid`. -/
def createSession (m : Sessions) (sessionName facilitatorId facilitatorName : String)
    (sid : String) (now : Int) : GameSession × Sessions :=
  let session : GameSession :=
    { id := sid
      name := sessionName
      facilitator := facilitatorId
      votingSystem := "simple"
      players := [{ id := facilitatorId, name := facilitatorName, isOnline := true }]
      settings :=
        { autoReveal := false, showAverage := true, showCountdown := true
          enableFunFeatures := true, whoCanReveal := "everyone"
          whoCanManageIssues := "facilitator" }
      history := []
      createdAt := now
      lastActivity := now }
  (session, alSet sid session m)

/-- `session.players.findIndex` followed by in-place replacement, else push:
replaces the first player with the same id by `{ ...player, isOnline: true }`,
otherwise appends. -/
def upsertPlayer (player : Player) : List Player → List Player
  | [] => [{ player with isOnline := true }]
  | p :: rest =>
    if p.id = player.id then { player with isOnline := true } :: rest
    else p :: upsertPlayer player rest

/-- SessionManager.addPlayerToSession. -/
def addPlayerToSession (m : Sessions) (sessionId : String) (player : Player)
    (now : Int) : Bool × Sessions :=
  match alGet sessionId m with
  | none => (false, m)
  | some s =>
    let s₂ : GameSession :=
      { s with players := upsertPlayer player s.players, lastActivity := now }
    (true, alSet sessionId s₂ m)

/-- SessionManager.removePlayerFromSession (the TypeScript source under
signaling-server/src): filters the player out of the roster and, when the
current round holds a truthy vote for them, deletes that vote. -/
def removePlayerFromSession (m : Sessions) (sessionId playerId : String)
    (now : Int) : Bool × Sessions :=
  match alGet sessionId m with
  | none => (false, m)
  | some s =>
    let players₂ := s.players.filter (fun p => decide (p.id ≠ playerId))
    let s₂ : GameSession := { s with players := players₂ }
    let s₃ : GameSession :=
      match s₂.currentVote with
      | some cv =>
        match alGet playerId cv.votes with
        | some v =>
          if voteTruthy v then
            { s₂ with currentVote := some { cv with votes := alRemove playerId cv.votes } }
          else s₂
        | none => s₂
      | none => s₂
    (true, alSet sessionId { s₃ with lastActivity := now } m)

/-- `session.players.find(p => p.id === playerId)` followed by mutation of the
found record: updates the first matching player only. -/
def updateFirstPlayer (playerId : String) (f : Player → Player) :
    List Player → List Player
  | [] => []
  | p :: rest =>
    if p.id = playerId then f p :: rest else p :: updateFirstPlayer playerId f rest

/-- SessionManager.updatePlayerVote: fails only when the session is missing or
has no current round; otherwise writes the vote into the round map and onto
the first matching player record (no check of the isRevealed flag). -/
def updatePlayerVote (m : Sessions) (sessionId playerId : String) (vote : Vote)
    (now : Int) : Bool × Sessions :=
  match alGet sessionId m with
  | none => (false, m)
  | some s =>
    match s.currentVote with
    | none => (false, m)
    | some cv =>
      let cv₂ : VotingRound := { cv with votes := alSet playerId vote cv.votes }
      let players₂ := updateFirstPlayer playerId
        (fun p => { p with vote := some vote, hasVoted := some true }) s.players
      let s₂ : GameSession :=
        { s with currentVote := some cv₂, players := players₂, lastActivity := now }
      (true, alSet sessionId s₂ m)

/-- SessionManager.startVoting: fresh round (uuid passed as `roundId`) with an
empty votes map, installed as the current round; every player record has vote
cleared and hasVoted set to false. -/
def startVoting (m : Sessions) (sessionId : String) (issueName : Option String)
    (roundId : String) (now : Int) : Option VotingRound × Sessions :=
  match alGet sessionId m with
  | none => (none, m)
  | some s =>
    let votingRound : VotingRound :=
      { id := roundId, issueName := issueName, votes := [], startTime := now
        isRevealed := false }
    let players₂ := s.players.map (fun p => { p with vote := none, hasVoted := some false })
    let s₂ : GameSession :=
      { s with currentVote := some votingRound, players := players₂, lastActivity := now }
    (some votingRound, alSet sessionId s₂ m)

/-- The numeric votes of a round, in map order
(`Object.values(votes).filter(v => typeof v === number)`). -/
def numericVotes (votes : List (String × Vote)) : List ℚ :=
  (votes.map Prod.snd).filterMap numOf

/-- SessionManager.revealVotes: marks the current round revealed with an end
timestamp; when at least one numeric vote exists, sets average to their mean
and hasAgreement to whether all of them equal the first; otherwise both fields
are left untouched.  The (updated) round is pushed onto the history. -/
def revealVotes (m : Sessions) (sessionId : String) (now : Int) : Bool × Sessions :=
  match alGet sessionId m with
  | none => (false, m)
  | some s =>
    match s.currentVote with
    | none => (false, m)
    | some cv =>
      let cv₂ : VotingRound := { cv with isRevealed := true, endTime := some now }
      let cv₃ : VotingRound :=
        match numericVotes cv.votes with
        | [] => cv₂
        | q₀ :: qs =>
          { cv₂ with
            average := some ((q₀ :: qs).sum / ((q₀ :: qs).length : ℚ))
            hasAgreement := some ((q₀ :: qs).all (fun q => decide (q = q₀))) }
      let s₂ : GameSession :=
        { s with currentVote := some cv₃, history := s.history ++ [cv₃]
                 lastActivity := now }
      (true, alSet sessionId s₂ m)

/-- JS truthiness of an optional string argument (`if (x)`). -/
def truthyStr : Option String → Option String
  | some x => if x = "" then none else some x
  | none => none

/-- SessionManager.updateSessionSettings: sparse update, only provided
(truthy) fields are applied. -/
def updateSessionSettings (m : Sessions) (sessionId : String)
    (settings : Option SettingsPatch) (facilitator name votingSystem : Option String)
    (now : Int) : Bool × Sessions :=
  match alGet sessionId m with
  | none => (false, m)
  | some s =>
    let s₁ := match settings with
      | some p => { s with settings := mergeSettings s.settings p }
      | none => s
    let s₂ := match truthyStr facilitator with
      | some f => { s₁ with facilitator := f }
      | none => s₁
    let s₃ := match truthyStr name with
      | some n => { s₂ with name := n }
      | none => s₂
    let s₄ := match truthyStr votingSystem with
      | some v => { s₃ with votingSystem := v }
      | none => s₃
    (true, alSet sessionId { s₄ with lastActivity := now } m)

/-- SessionManager.cleanupInactiveSessions: walks the session map, deleting
every session with `now - lastActivity > maxAge` and counting the deletions. -/
def cleanupInactiveSessions (m : Sessions) (now maxAge : Int) : Nat × Sessions :=
  match m with
  | [] => (0, [])
  | (k, s) :: rest =>
    let r := cleanupInactiveSessions rest now maxAge
    if now - s.lastActivity > maxAge then (r.1 + 1, r.2) else (r.1, (k, s) :: r.2)

/-- A connected player record owned by the PlayerManager (the Connection
Registry); the transport handle `ws` is modelled as an opaque Nat. -/
structure ConnectedPlayer : Type where
  ws : Nat
  sessionId : String
  userId : String
  userName : String
  lastHeartbeat : Int
deriving DecidableEq, Repr

/-- PlayerManager state: the connections map and the secondary
`sessionId:userId -> connectionId` index. -/
structure PMState : Type where
  connections : List (String × ConnectedPlayer)
  userToConnection : List (String × String)
deriving DecidableEq, Repr

/-- PlayerManager.addConnection. -/
def addConnection (pm : PMState) (connectionId : String) (ws : Nat)
    (sessionId userId userName : String) (now : Int) : PMState :=
  let player : ConnectedPlayer :=
    { ws := ws, sessionId := sessionId, userId := userId, userName := userName
      lastHeartbeat := now }
  { connections := alSet connectionId player pm.connections
    userToConnection :=
      alSet (sessionId ++ ":" ++ userId) connectionId pm.userToConnection }

/-- PlayerManager.getConnection. -/
def getConnection (pm : PMState) (connectionId : String) : Option ConnectedPlayer :=
  alGet connectionId pm.connections

/-- PlayerManager.removeConnection. -/
def removeConnection (pm : PMState) (connectionId : String) :
    Option ConnectedPlayer × PMState :=
  match alGet connectionId pm.connections with
  | none => (none, pm)
  | some player =>
    (some player,
     { connections := alRemove connectionId pm.connections
       userToConnection :=
         alRemove (player.sessionId ++ ":" ++ player.userId) pm.userToConnection })

/-- PlayerManager.getConnectionsBySession: all connection records whose
sessionId matches, in map order. -/
def getConnectionsBySession (pm : PMState) (sessionId : String) :
    List ConnectedPlayer :=
  (pm.connections.map Prod.snd).filter (fun p => decide (p.sessionId = sessionId))

/-- A domain event carried inside a sync_event message. -/
inductive Event : Type
  | VOTE_SUBMITTED (playerId : String) (vote : Vote)
  | VOTING_STARTED (issueName : Option String)
  | VOTES_REVEALED
  | SETTINGS_UPDATED (settings : Option SettingsPatch)
      (facilitator name votingSystem : Option String)
  | PLAYER_LEFT (playerId : String)
  | EMOJI_SENT
  | PLAYER_JOINED (player : Option Player)
  | PLAYER_DISCONNECTED (playerId : String)
deriving DecidableEq, Repr

/-- Outbound server message (ServerResponse), with its timestamp. -/
inductive OutMsg : Type
  | joined (session : GameSession) (ts : Int)
  | session_not_found (message : String) (ts : Int)
  | error (message : String) (ts : Int)
  | sync_event (event : Event) (ts : Int)
  | heartbeat_ack (ts : Int)
deriving DecidableEq, Repr

/-- The whole server state: the two registries.  The list of outbound sends
produced by a handler is returned alongside, each as (ws handle, message). -/
structure ServerState : Type where
  pm : PMState
  sm : Sessions
deriving DecidableEq, Repr

/-- server.ts broadcastToSession: sends the message to every connection of
the session whose socket is open, skipping any connection sharing the ws
handle of the exclude connection.  `isOpen` models `readyState === OPEN`. -/
def broadcastToSession (pm : PMState) (sessionId : String) (msg : OutMsg)
    (excludeConnectionId : Option String) (isOpen : Nat → Bool) :
    List (Nat × OutMsg) :=
  (getConnectionsBySession pm sessionId).filterMap fun player =>
    let excluded : Bool :=
      match excludeConnectionId with
      | some ec =>
        match getConnection pm ec with
        | some q => decide (player.ws = q.ws)
        | none => false
      | none => false
    if excluded then none
    else if isOpen player.ws then some (player.ws, msg) else none

/-- JS falsiness test used by the join handler on its required fields
(`!sessionId || !userId || !userName`): absent or empty string. -/
def strFalsy : Option String → Bool
  | none => true
  | some x => decide (x = "")

/-- server.ts handleJoin: registers the connection first, then looks the
session up; a missing session yields the session_not_found notice (the
connection stays registered); otherwise the player is upserted into the
roster, the joiner gets the full snapshot and everyone else gets a
PLAYER_JOINED sync_event. -/
def handleJoin (st : ServerState) (connectionId : String) (ws : Nat)
    (sessionId userId userName : Option String) (isOpen : Nat → Bool)
    (now ts : Int) : ServerState × List (Nat × OutMsg) :=
  if strFalsy sessionId || strFalsy userId || strFalsy userName then
    (st, [(ws, OutMsg.error "Missing required fields for join" ts)])
  else
    let sid := sessionId.getD ""
    let uid := userId.getD ""
    let uname := userName.getD ""
    let pm₂ := addConnection st.pm connectionId ws sid uid uname now
    match getSession st.sm sid with
    | none =>
      ({ st with pm := pm₂ }, [(ws, OutMsg.session_not_found "Session not found" ts)])
    | some _ =>
      let r := addPlayerToSession st.sm sid
        { id := uid, name := uname, isOnline := true } now
      if r.1 then
        match getSession r.2 sid with
        | some session =>
          let sends :=
            (ws, OutMsg.joined session ts) ::
            broadcastToSession pm₂ sid
              (OutMsg.sync_event
                (Event.PLAYER_JOINED (session.players.find? (fun p => p.id = uid))) ts)
              (some connectionId) isOpen
          ({ pm := pm₂, sm := r.2 }, sends)
        | none => ({ pm := pm₂, sm := r.2 }, [])
      else ({ pm := pm₂, sm := r.2 }, [(ws, OutMsg.error "Failed to join session" ts)])

/-- The registry call triggered by each sync_event kind (the switch in
handleSyncEvent); kinds without a case fall through with no mutation. -/
def processEvent (sm : Sessions) (sessionId : String) (e : Event) (now : Int)
    (freshRoundId : String) : Sessions :=
  match e with
  | .VOTE_SUBMITTED playerId vote => (updatePlayerVote sm sessionId playerId vote now).2
  | .VOTING_STARTED issueName => (startVoting sm sessionId issueName freshRoundId now).2
  | .VOTES_REVEALED => (revealVotes sm sessionId now).2
  | .SETTINGS_UPDATED settings facilitator name votingSystem =>
      (updateSessionSettings sm sessionId settings facilitator name votingSystem now).2
  | .PLAYER_LEFT playerId => (removePlayerFromSession sm sessionId playerId now).2
  | .EMOJI_SENT => sm
  | .PLAYER_JOINED _ => sm
  | .PLAYER_DISCONNECTED _ => sm

/-- server.ts handleSyncEvent: looks the sender up in the Connection
Registry, applies the event to the Session Registry, then broadcasts the
event to every connection of the session with no exclusion. -/
def handleSyncEvent (st : ServerState) (connectionId : String)
    (event : Option Event) (isOpen : Nat → Bool) (now ts : Int)
    (freshRoundId : String) : ServerState × List (Nat × OutMsg) :=
  match getConnection st.pm connectionId, event with
  | some player, some e =>
    let sm₂ := processEvent st.sm player.sessionId e now freshRoundId
    let sends := broadcastToSession st.pm player.sessionId
      (OutMsg.sync_event e ts) none isOpen
    ({ st with sm := sm₂ }, sends)
  | _, _ => (st, [])

/-- Client store calculateResults (src/lib/realtime.ts): always returns a
concrete pair; with no session, no round, or no numeric votes it returns
average 0 and hasAgreement false. -/
def calculateResults (session : Option GameSession) : ℚ × Bool :=
  match session with
  | none => (0, false)
  | some s =>
    match s.currentVote with
    | none => (0, false)
    | some cv =>
      match numericVotes cv.votes with
      | [] => (0, false)
      | q₀ :: qs =>
        ((q₀ :: qs).sum / ((q₀ :: qs).length : ℚ),
         (q₀ :: qs).all (fun q => decide (q = q₀)))

/-! ### Association-list lemmas -/

lemma alGet_alSet_self {α : Type} (k : String) (v : α) (l : List (String × α)) :
    alGet k (alSet k v l) = some v := by
  induction l with
  | nil => simp [alGet, alSet]
  | cons hd tl ih =>
    obtain ⟨k₂, v₂⟩ := hd
    by_cases h : k₂ = k
    · simp [alGet, alSet, h]
    · simp [alGet, alSet, h, ih]

lemma alGet_mem {α : Type} {k : String} {v : α} {l : List (String × α)}
    (h : alGet k l = some v) : (k, v) ∈ l := by
  induction l with
  | nil => simp [alGet] at h
  | cons hd tl ih =>
    obtain ⟨k₂, v₂⟩ := hd
    by_cases hk : k₂ = k
    · simp [alGet, hk] at h
      subst hk h
      exact List.mem_cons_self _ _
    · simp [alGet, hk] at h
      exact List.mem_cons_of_mem _ (ih h)

lemma alGet_mem_keys {α : Type} {k : String} {v : α} {l : List (String × α)}
    (h : alGet k l = some v) : k ∈ l.map Prod.fst :=
  List.mem_map.mpr ⟨(k, v), alGet_mem h, rfl⟩

lemma alGet_eq_none_of_not_mem_keys {α : Type} {k : String} {l : List (String × α)}
    (h : k ∉ l.map Prod.fst) : alGet k l = none := by
  induction l with
  | nil => rfl
  | cons hd tl ih =>
    obtain ⟨k₂, v₂⟩ := hd
    rw [List.map_cons, List.mem_cons] at h
    push_neg at h
    have hk : k₂ ≠ k := fun he => h.1 he.symm
    simp [alGet, hk, ih h.2]

lemma alGet_filter {α : Type} (p : String × α → Bool) {l : List (String × α)}
    (hn : (l.map Prod.fst).Nodup) (k : String) :
    alGet k (l.filter p) =
      match alGet k l with
      | none => none
      | some v => if p (k, v) then some v else none := by
  induction l with
  | nil => rfl
  | cons hd tl ih =>
    obtain ⟨k₂, v₂⟩ := hd
    simp only [List.map_cons, List.nodup_cons] at hn
    by_cases hk : k₂ = k
    · subst hk
      by_cases hp : p (k₂, v₂)
      · simp [List.filter_cons, hp, alGet]
      · have : alGet k₂ (tl.filter p) = none := by
          refine alGet_eq_none_of_not_mem_keys fun hmem => hn.1 ?_
          obtain ⟨⟨k₃, v₃⟩, h₃, rfl⟩ := List.mem_map.mp hmem
          exact List.mem_map.mpr ⟨_, List.mem_of_mem_filter h₃, rfl⟩
        simp [List.filter_cons, hp, alGet, this]
    · by_cases hp : p (k₂, v₂) <;>
        simp [List.filter_cons, hp, alGet, hk, ih hn.2]

lemma countOcc_eq_zero_of_not_mem {α : Type} [DecidableEq α] {x : α} {l : List α}
    (h : x ∉ l) : countOcc x l = 0 := by
  induction l with
  | nil => rfl
  | cons y tl ih =>
    rw [List.mem_cons] at h
    push_neg at h
    have hy : y ≠ x := fun he => h.1 he.symm
    simp [countOcc, hy, ih h.2]

/-! ### The broadcast send list -/

/-- The per-recipient body of broadcastToSession when no exclusion applies. -/
def sendTo (isOpen : Nat → Bool) (msg : OutMsg) (player : ConnectedPlayer) :
    Option (Nat × OutMsg) :=
  if isOpen player.ws then some (player.ws, msg) else none

lemma broadcastToSession_none (pm : PMState) (sessionId : String) (msg : OutMsg)
    (isOpen : Nat → Bool) :
    broadcastToSession pm sessionId msg none isOpen =
      (getConnectionsBySession pm sessionId).filterMap (sendTo isOpen msg) := rfl

lemma ws_mem_of_mem_sendList {isOpen : Nat → Bool} {msg : OutMsg}
    {l : List ConnectedPlayer} {w : Nat} {m₂ : OutMsg}
    (h : (w, m₂) ∈ l.filterMap (sendTo isOpen msg)) :
    w ∈ l.map (fun p => p.ws) := by
  obtain ⟨q, hq, hsome⟩ := List.mem_filterMap.mp h
  unfold sendTo at hsome
  split at hsome
  · exact List.mem_map.mpr ⟨q, hq, by injection hsome with h₂; exact congrArg Prod.fst h₂⟩
  · exact absurd hsome (by simp)

lemma countOcc_sendList {isOpen : Nat → Bool} {msg : OutMsg}
    {l : List ConnectedPlayer}
    (hn : (l.map (fun p => p.ws)).Nodup) {q : ConnectedPlayer}
    (hq : q ∈ l) (ho : isOpen q.ws = true) :
    countOcc (q.ws, msg) (l.filterMap (sendTo isOpen msg)) = 1 := by
  induction l with
  | nil => cases hq
  | cons p tl ih =>
    simp only [List.map_cons, List.nodup_cons] at hn
    rcases List.mem_cons.mp hq with hqp | hq₂
    · subst hqp
      have hz : countOcc (q.ws, msg) (tl.filterMap (sendTo isOpen msg)) = 0 := by
        refine countOcc_eq_zero_of_not_mem fun hmem => hn.1 ?_
        exact ws_mem_of_mem_sendList hmem
      simp [List.filterMap_cons, sendTo, ho, countOcc, hz]
    · have hne : p.ws ≠ q.ws := by
        intro he
        exact hn.1 (he ▸ List.mem_map.mpr ⟨q, hq₂, rfl⟩)
      have hrec := ih hn.2 hq₂
      by_cases hop : isOpen p.ws = true
      · simpa [List.filterMap_cons, sendTo, hop, countOcc, Prod.ext_iff, hne] using hrec
      · simpa [List.filterMap_cons, sendTo, hop] using hrec

lemma mem_sendList {isOpen : Nat → Bool} {msg : OutMsg} {l : List ConnectedPlayer}
    {x : Nat × OutMsg} (h : x ∈ l.filterMap (sendTo isOpen msg)) :
    ∃ q, q ∈ l ∧ isOpen q.ws = true ∧ x = (q.ws, msg) := by
  obtain ⟨q, hq, hsome⟩ := List.mem_filterMap.mp h
  unfold sendTo at hsome
  split at hsome
  · exact ⟨q, hq, by assumption, by injection hsome with h₂; exact h₂.symm⟩
  · exact absurd hsome (by simp)

/-! ### upsertPlayer lemmas -/

lemma upsertPlayer_length_of_mem {player : Player} {l : List Player}
    (h : ∃ p ∈ l, p.id = player.id) : (upsertPlayer player l).length = l.length := by
  induction l with
  | nil => simp at h
  | cons p tl ih =>
    by_cases hp : p.id = player.id
    · simp [upsertPlayer, hp]
    · obtain ⟨p₂, hp₂, hid⟩ := h
      rcases List.mem_cons.mp hp₂ with rfl | hmem
      · exact absurd hid hp
      · simp [upsertPlayer, hp, ih ⟨p₂, hmem, hid⟩]

lemma upsertPlayer_append_of_not_mem {player : Player} {l : List Player}
    (h : ∀ p ∈ l, p.id ≠ player.id) :
    upsertPlayer player l = l ++ [{ player with isOnline := true }] := by
  induction l with
  | nil => rfl
  | cons p tl ih =>
    have hp : p.id ≠ player.id := h p (List.mem_cons_self _ _)
    simp [upsertPlayer, hp, ih (fun q hq => h q (List.mem_cons_of_mem _ hq))]

lemma upsertPlayer_mem (player : Player) (l : List Player) :
    { player with isOnline := true } ∈ upsertPlayer player l := by
  induction l with
  | nil => simp [upsertPlayer]
  | cons p tl ih =>
    by_cases hp : p.id = player.id
    · simp [upsertPlayer, hp]
    · simp only [upsertPlayer, if_neg hp]
      exact List.mem_cons_of_mem _ ih

/-! ### revealVotes single step -/

lemma revealVotes_step (m : Sessions) (sid : String) (now : Int)
    (s : GameSession) (cv : VotingRound)
    (hs : alGet sid m = some s) (hcv : s.currentVote = some cv) :
    ∃ cv₂,
      revealVotes m sid now =
        (true, alSet sid
          { s with currentVote := some cv₂, history := s.history ++ [cv₂]
                   lastActivity := now } m) ∧
      cv₂.isRevealed = true ∧ cv₂.endTime = some now ∧
      cv₂.id = cv.id ∧ cv₂.votes = cv.votes ∧
      (numericVotes cv.votes = [] →
        cv₂.average = cv.average ∧ cv₂.hasAgreement = cv.hasAgreement) ∧
      (∀ q₀ qs, numericVotes cv.votes = q₀ :: qs →
        cv₂.average = some ((q₀ :: qs).sum / ((q₀ :: qs).length : ℚ)) ∧
        cv₂.hasAgreement = some ((q₀ :: qs).all (fun q => decide (q = q₀)))) := by
  cases hnv : numericVotes cv.votes with
  | nil =>
    refine ⟨{ cv with isRevealed := true, endTime := some now }, ?_, rfl, rfl, rfl, rfl,
      fun _ => ⟨rfl, rfl⟩, fun q₀ qs hq => absurd hq (by simp)⟩
    simp [revealVotes, hs, hcv, hnv]
  | cons q₀ qs =>
    refine ⟨{ cv with isRevealed := true, endTime := some now,
                      average := some ((q₀ :: qs).sum / ((q₀ :: qs).length : ℚ)),
                      hasAgreement := some ((q₀ :: qs).all (fun q => decide (q = q₀))) },
      ?_, rfl, rfl, rfl, rfl,
      fun he => absurd he (by simp),
      fun q₁ qs₁ hq => by
        injection hq with h₁ h₂
        subst h₁ h₂
        exact ⟨rfl, rfl⟩⟩
    simp [revealVotes, hs, hcv, hnv]

/-! ### Claim theorems -/

/-- C1 counterexample: on a session whose current round is already revealed,
updatePlayerVote does not fail — it returns success and records the vote,
so the claim that a revealed round is rejected is false on the code. -/
theorem updatePlayerVote_revealed_counterexample :
    let cv : VotingRound :=
      { id := "r1", issueName := none, votes := [], startTime := 0, isRevealed := true }
    let s : GameSession :=
      { id := "s", name := "Demo", facilitator := "p", votingSystem := "simple",
        players := [{ id := "p", name := "Pat", isOnline := true }],
        settings := ⟨false, true, true, true, "everyone", "facilitator"⟩,
        history := [], currentVote := some cv, createdAt := 0, lastActivity := 0 }
    let r := updatePlayerVote [("s", s)] "s" "p" (Vote.num 3) 7
    cv.isRevealed = true ∧ r.1 = true ∧ r.2 ≠ [("s", s)] ∧
    ∃ s₂ cv₂, getSession r.2 "s" = some s₂ ∧ s₂.currentVote = some cv₂ ∧
      alGet "p" cv₂.votes = some (Vote.num 3) := by
  exact ⟨rfl, rfl, by decide, _, _, rfl, rfl, rfl⟩

/-- C1 amended: updatePlayerVote fails exactly when the session is missing or
has no current round, leaving the whole session map untouched in that case;
whenever a current round exists — revealed or not — it succeeds, writes the
vote into the round map and onto the first matching player record with
hasVoted set, and refreshes last-activity. -/
theorem updatePlayerVote_amended (m : Sessions) (sid pid : String) (v : Vote)
    (now : Int) :
    ((getSession m sid = none ∨ ∃ s, getSession m sid = some s ∧ s.currentVote = none) →
      updatePlayerVote m sid pid v now = (false, m)) ∧
    (∀ s cv, getSession m sid = some s → s.currentVote = some cv →
      (updatePlayerVote m sid pid v now).1 = true ∧
      ∃ s₂, getSession (updatePlayerVote m sid pid v now).2 sid = some s₂ ∧
        s₂.currentVote = some { cv with votes := alSet pid v cv.votes } ∧
        s₂.players = updateFirstPlayer pid
          (fun p => { p with vote := some v, hasVoted := some true }) s.players ∧
        s₂.lastActivity = now ∧ s₂.history = s.history) := by
  constructor
  · rintro (hnone | ⟨s, hs, hcv⟩)
    · rw [getSession] at hnone
      simp [updatePlayerVote, hnone]
    · rw [getSession] at hs
      simp [updatePlayerVote, hs, hcv]
  · intro s cv hs hcv
    rw [getSession] at hs
    simp only [updatePlayerVote, hs, hcv]
    exact ⟨trivial, _, alGet_alSet_self _ _ _, rfl, rfl, rfl, rfl⟩

/-- C1 witness: the amended theorem applied to a concrete session whose
current round is already revealed. -/
theorem updatePlayerVote_amended_witness :
    let cv : VotingRound :=
      { id := "r1", issueName := none, votes := [], startTime := 0, isRevealed := true }
    let s : GameSession :=
      { id := "s", name := "Demo", facilitator := "p", votingSystem := "simple",
        players := [{ id := "p", name := "Pat", isOnline := true }],
        settings := ⟨false, true, true, true, "everyone", "facilitator"⟩,
        history := [], currentVote := some cv, createdAt := 0, lastActivity := 0 }
    (updatePlayerVote [("s", s)] "s" "p" (Vote.num 3) 7).1 = true ∧
    ∃ s₂, getSession (updatePlayerVote [("s", s)] "s" "p" (Vote.num 3) 7).2 "s" = some s₂ ∧
      s₂.currentVote = some { cv with votes := alSet "p" (Vote.num 3) cv.votes } ∧
      s₂.players = updateFirstPlayer "p"
        (fun p => { p with vote := some (Vote.num 3), hasVoted := some true }) s.players ∧
      s₂.lastActivity = 7 ∧ s₂.history = s.history := by
  intro cv s
  exact (updatePlayerVote_amended [("s", s)] "s" "p" (Vote.num 3) 7).2 s cv rfl rfl

/-- C2: the claim matches the intent documented at the call site in server.ts
(the comment says the player is marked offline) and the earlier build in
dist/, but the TypeScript source removes the roster entry and deletes the
players truthy vote.  This theorem evaluates the code at a failing input:
the participant record is gone and the vote no longer in the round map. -/
theorem removePlayerFromSession_removes_entry :
    let cv : VotingRound :=
      { id := "r1", issueName := none, votes := [("p", Vote.num 5)],
        startTime := 0, isRevealed := false }
    let s : GameSession :=
      { id := "s", name := "Demo", facilitator := "p", votingSystem := "simple",
        players := [{ id := "p", name := "Pat", isOnline := true }],
        settings := ⟨false, true, true, true, "everyone", "facilitator"⟩,
        history := [], currentVote := some cv, createdAt := 0, lastActivity := 0 }
    let r := removePlayerFromSession [("s", s)] "s" "p" 9
    r.1 = true ∧
    ∃ s₂, getSession r.2 "s" = some s₂ ∧ s₂.players = [] ∧ s₂.lastActivity = 9 ∧
      ∃ cv₂, s₂.currentVote = some cv₂ ∧ alGet "p" cv₂.votes = none := by
  exact ⟨rfl, _, rfl, rfl, rfl, _, rfl, rfl⟩

/-- C3 counterexample: joining a nonexistent session does send the
distinguished session_not_found notice to the joining connection only, but
the Connection Registry still holds the entry registered for that connection
afterwards — it is not rolled back, contradicting the claim. -/
theorem handleJoin_registry_not_rolled_back :
    let st : ServerState := { pm := { connections := [], userToConnection := [] }, sm := [] }
    let r := handleJoin st "c1" 7 (some "s1") (some "u1") (some "Alice")
      (fun _ => true) 0 1
    r.2 = [(7, OutMsg.session_not_found "Session not found" 1)] ∧
    getConnection r.1.pm "c1" ≠ none := by
  exact ⟨rfl, by decide⟩

/-- C3 amended: a join naming a session that does not exist yields exactly one
outbound message, the session_not_found notice to the joining socket; no
session roster is mutated (the Session Registry is untouched); and the
Connection Registry retains the entry registered for the connection. -/
theorem handleJoin_session_missing (st : ServerState) (c : String) (ws : Nat)
    (sid uid uname : String) (isOpen : Nat → Bool) (now ts : Int)
    (hsid : sid ≠ "") (huid : uid ≠ "") (hun : uname ≠ "")
    (hmiss : getSession st.sm sid = none) :
    let r := handleJoin st c ws (some sid) (some uid) (some uname) isOpen now ts
    r.2 = [(ws, OutMsg.session_not_found "Session not found" ts)] ∧
    r.1.sm = st.sm ∧
    getConnection r.1.pm c =
      some { ws := ws, sessionId := sid, userId := uid, userName := uname,
             lastHeartbeat := now } := by
  intro r
  have hfal : (strFalsy (some sid) || strFalsy (some uid) || strFalsy (some uname)) = false := by
    simp [strFalsy, hsid, huid, hun]
  refine ⟨?_, ?_, ?_⟩ <;>
    simp [r, handleJoin, hfal, Option.getD_some, hmiss, getConnection, addConnection,
      alGet_alSet_self]

/-- C3 witness: the amended theorem applied to the empty server state. -/
theorem handleJoin_session_missing_witness :
    let st : ServerState := { pm := { connections := [], userToConnection := [] }, sm := [] }
    let r := handleJoin st "c1" 7 (some "s1") (some "u1") (some "Alice")
      (fun _ => true) 0 1
    r.2 = [(7, OutMsg.session_not_found "Session not found" 1)] ∧
    r.1.sm = st.sm ∧
    getConnection r.1.pm "c1" =
      some { ws := 7, sessionId := "s1", userId := "u1", userName := "Alice",
             lastHeartbeat := 0 } := by
  intro st
  exact handleJoin_session_missing st "c1" 7 "s1" "u1" "Alice" (fun _ => true) 0 1
    (by decide) (by decide) (by decide) rfl

/-- C4 counterexample: with a votes map holding no numeric vote, the server
leaves average and hasAgreement unset, but the client calculateResults
returns average 0 and hasAgreement false — the two computations do not agree,
and the client does not leave the fields unset. -/
theorem calculateResults_zero_numeric_counterexample :
    let cv : VotingRound :=
      { id := "r1", issueName := none, votes := [("A", Vote.str "?")],
        startTime := 0, isRevealed := false }
    let s : GameSession :=
      { id := "s", name := "Demo", facilitator := "A", votingSystem := "simple",
        players := [{ id := "A", name := "Alice", isOnline := true }],
        settings := ⟨false, true, true, true, "everyone", "facilitator"⟩,
        history := [], currentVote := some cv, createdAt := 0, lastActivity := 0 }
    calculateResults (some s) = (0, false) ∧
    ∃ s₂ cv₂, getSession (revealVotes [("s", s)] "s" 9).2 "s" = some s₂ ∧
      s₂.currentVote = some cv₂ ∧ cv₂.average = none ∧ cv₂.hasAgreement = none := by
  exact ⟨rfl, _, _, rfl, rfl, rfl, rfl⟩

/-- C4 amended: whenever at least one numeric vote exists, the server-side
revealVotes stores exactly the average and agreement that the client-side
calculateResults computes on the same session; with zero numeric votes the
client returns average 0 and agreement false while the server assigns
neither field (it leaves them as they were, unset on any fresh round). -/
theorem calculateResults_matches_revealVotes (m : Sessions) (sid : String)
    (now : Int) (s : GameSession) (cv : VotingRound)
    (hs : getSession m sid = some s) (hcv : s.currentVote = some cv) :
    (∀ q₀ qs, numericVotes cv.votes = q₀ :: qs →
      ∃ s₂ cv₂, getSession (revealVotes m sid now).2 sid = some s₂ ∧
        s₂.currentVote = some cv₂ ∧
        cv₂.average = some (calculateResults (some s)).1 ∧
        cv₂.hasAgreement = some (calculateResults (some s)).2) ∧
    (numericVotes cv.votes = [] →
      calculateResults (some s) = (0, false) ∧
      ∃ s₂ cv₂, getSession (revealVotes m sid now).2 sid = some s₂ ∧
        s₂.currentVote = some cv₂ ∧
        cv₂.average = cv.average ∧ cv₂.hasAgreement = cv.hasAgreement) := by
  rw [getSession] at hs
  obtain ⟨cv₂, heq, hrev, hend, hid, hvotes, hemp, hcons⟩ :=
    revealVotes_step m sid now s cv hs hcv
  constructor
  · intro q₀ qs hnv
    obtain ⟨ha, hb⟩ := hcons q₀ qs hnv
    refine ⟨{ s with currentVote := some cv₂, history := s.history ++ [cv₂], lastActivity := now }, cv₂, ?_, rfl, ?_, ?_⟩
    · rw [getSession]
      simp only [heq]
      exact alGet_alSet_self _ _ _
    · rw [ha]
      simp [calculateResults, hcv, hnv]
    · rw [hb]
      simp [calculateResults, hcv, hnv]
  · intro hnv
    obtain ⟨ha, hb⟩ := hemp hnv
    refine ⟨by simp [calculateResults, hcv, hnv],
      { s with currentVote := some cv₂, history := s.history ++ [cv₂], lastActivity := now },
      cv₂, ?_, rfl, ha, hb⟩
    rw [getSession]
    simp only [heq]
    exact alGet_alSet_self _ _ _

/-- C4 witness: the amended theorem applied on a round with two equal
numeric votes. -/
theorem calculateResults_matches_revealVotes_witness :
    let cv : VotingRound :=
      { id := "r1", issueName := none,
        votes := [("A", Vote.num 5), ("B", Vote.num 5)],
        startTime := 0, isRevealed := false }
    let s : GameSession :=
      { id := "s", name := "Demo", facilitator := "A", votingSystem := "simple",
        players := [{ id := "A", name := "Alice", isOnline := true }],
        settings := ⟨false, true, true, true, "everyone", "facilitator"⟩,
        history := [], currentVote := some cv, createdAt := 0, lastActivity := 0 }
    ∃ s₂ cv₂, getSession (revealVotes [("s", s)] "s" 9).2 "s" = some s₂ ∧
      s₂.currentVote = some cv₂ ∧
      cv₂.average = some (calculateResults (some s)).1 ∧
      cv₂.hasAgreement = some (calculateResults (some s)).2 := by
  intro cv s
  exact (calculateResults_matches_revealVotes [("s", s)] "s" 9 s cv rfl rfl).1 5 [5] rfl

/-- C5: revealVotes on a session with a current round succeeds, marks the
round revealed with end timestamp now, appends the updated round to history,
refreshes last-activity; with at least one numeric vote it sets average to
the arithmetic mean of the numeric votes only and agreement to whether all
numeric votes are equal (true iff they are pairwise equal); with no numeric
vote it assigns neither field, leaving them as they were — unset for any
round created by startVoting. -/
theorem revealVotes_spec (m : Sessions) (sid : String) (now : Int)
    (s : GameSession) (cv : VotingRound)
    (hs : getSession m sid = some s) (hcv : s.currentVote = some cv) :
    (revealVotes m sid now).1 = true ∧
    ∃ s₂ cv₂, getSession (revealVotes m sid now).2 sid = some s₂ ∧
      s₂.currentVote = some cv₂ ∧
      cv₂.isRevealed = true ∧ cv₂.endTime = some now ∧
      s₂.history = s.history ++ [cv₂] ∧ s₂.lastActivity = now ∧
      (numericVotes cv.votes = [] →
        cv₂.average = cv.average ∧ cv₂.hasAgreement = cv.hasAgreement) ∧
      (∀ q₀ qs, numericVotes cv.votes = q₀ :: qs →
        cv₂.average = some ((q₀ :: qs).sum / ((q₀ :: qs).length : ℚ)) ∧
        cv₂.hasAgreement = some ((q₀ :: qs).all (fun q => decide (q = q₀))) ∧
        (cv₂.hasAgreement = some true ↔
          ∀ a ∈ numericVotes cv.votes, ∀ b ∈ numericVotes cv.votes, a = b)) := by
  rw [getSession] at hs
  obtain ⟨cv₂, heq, hrev, hend, hid, hvotes, hemp, hcons⟩ :=
    revealVotes_step m sid now s cv hs hcv
  refine ⟨by simp [heq],
    { s with currentVote := some cv₂, history := s.history ++ [cv₂], lastActivity := now },
    cv₂, ?_, rfl, hrev, hend, rfl, rfl, hemp, ?_⟩
  · rw [getSession]
    simp only [heq]
    exact alGet_alSet_self _ _ _
  · intro q₀ qs hnv
    obtain ⟨ha, hb⟩ := hcons q₀ qs hnv
    refine ⟨ha, hb, ?_⟩
    rw [hb, hnv]
    simp only [Option.some.injEq, List.all_eq_true, decide_eq_true_eq]
    constructor
    · intro h a ha₂ b hb₂
      exact (h a ha₂).trans (h b hb₂).symm
    · intro h x hx
      exact h x hx q₀ (List.mem_cons_self _ _)

/-- C5 witness: the spec test vector A:3, B:5, C:3 gives average 11/3 and no
agreement; the vector A:?, B:5 gives average 5 and agreement. -/
theorem revealVotes_spec_witness :
    let cv : VotingRound :=
      { id := "r1", issueName := none,
        votes := [("A", Vote.num 3), ("B", Vote.num 5), ("C", Vote.num 3)],
        startTime := 0, isRevealed := false }
    let s : GameSession :=
      { id := "s", name := "Demo", facilitator := "A", votingSystem := "simple",
        players := [{ id := "A", name := "Alice", isOnline := true }],
        settings := ⟨false, true, true, true, "everyone", "facilitator"⟩,
        history := [], currentVote := some cv, createdAt := 0, lastActivity := 0 }
    (revealVotes [("s", s)] "s" 9).1 = true ∧
    ∃ s₂ cv₂, getSession (revealVotes [("s", s)] "s" 9).2 "s" = some s₂ ∧
      s₂.currentVote = some cv₂ ∧ cv₂.isRevealed = true ∧
      s₂.history = [cv₂] ∧
      cv₂.average = some ((11 : ℚ) / 3) ∧ cv₂.hasAgreement = some false := by
  intro cv s
  obtain ⟨h₁, s₂, cv₂, hget, hcv₂, hrev, hend, hhist, hact, hemp, hcons⟩ :=
    revealVotes_spec [("s", s)] "s" 9 s cv rfl rfl
  obtain ⟨ha, hb, hiff⟩ := hcons 3 [5, 3] rfl
  refine ⟨h₁, s₂, cv₂, hget, hcv₂, hrev, ?_, ?_, ?_⟩
  · simpa using hhist
  · rw [ha]
    norm_num [List.sum_cons, List.sum_nil]
  · rw [hb]
    norm_num

/-- C6: startVoting on an existing session installs a fresh round with an
empty votes map and revealed false; every participant record has its vote
cleared and hasVoted reset to false; last-activity is refreshed; and no
player id maps to a vote in the new round. -/
theorem startVoting_spec (m : Sessions) (sid : String) (issue : Option String)
    (rid : String) (now : Int) (s : GameSession)
    (hs : getSession m sid = some s) :
    ∃ round, (startVoting m sid issue rid now).1 = some round ∧
      round.votes = [] ∧ round.isRevealed = false ∧ round.id = rid ∧
      round.issueName = issue ∧ round.startTime = now ∧ round.endTime = none ∧
      round.average = none ∧ round.hasAgreement = none ∧
      (∀ pid, alGet pid round.votes = none) ∧
      ∃ s₂, getSession (startVoting m sid issue rid now).2 sid = some s₂ ∧
        s₂.currentVote = some round ∧
        s₂.players = s.players.map (fun p => { p with vote := none, hasVoted := some false }) ∧
        (∀ p ∈ s₂.players, p.vote = none ∧ p.hasVoted = some false) ∧
        s₂.lastActivity = now := by
  rw [getSession] at hs
  simp only [startVoting, hs]
  refine ⟨{ id := rid, issueName := issue, votes := [], startTime := now, isRevealed := false },
    rfl, rfl, rfl, rfl, rfl, rfl, rfl, rfl, rfl, fun _ => rfl,
    { s with
      currentVote := some { id := rid, issueName := issue, votes := [], startTime := now, isRevealed := false },
      players := s.players.map (fun p => { p with vote := none, hasVoted := some false }),
      lastActivity := now },
    ?_, rfl, rfl, ?_, rfl⟩
  · rw [getSession]
    exact alGet_alSet_self _ _ _
  · intro p hp
    obtain ⟨q, hq, rfl⟩ := List.mem_map.mp hp
    exact ⟨rfl, rfl⟩

/-- C6 witness: a session holding a recorded vote gets a clean new round. -/
theorem startVoting_spec_witness :
    let cv : VotingRound :=
      { id := "r1", issueName := none, votes := [("p", Vote.num 8)],
        startTime := 0, isRevealed := false }
    let s : GameSession :=
      { id := "s", name := "Demo", facilitator := "p", votingSystem := "simple",
        players := [{ id := "p", name := "Pat", isOnline := true,
                      vote := some (Vote.num 8), hasVoted := some true }],
        settings := ⟨false, true, true, true, "everyone", "facilitator"⟩,
        history := [], currentVote := some cv, createdAt := 0, lastActivity := 0 }
    ∃ round, (startVoting [("s", s)] "s" (some "issue2") "r2" 9).1 = some round ∧
      round.votes = [] ∧ round.isRevealed = false ∧ round.id = "r2" ∧
      round.issueName = some "issue2" ∧ round.startTime = 9 ∧ round.endTime = none ∧
      round.average = none ∧ round.hasAgreement = none ∧
      (∀ pid, alGet pid round.votes = none) ∧
      ∃ s₂, getSession (startVoting [("s", s)] "s" (some "issue2") "r2" 9).2 "s" = some s₂ ∧
        s₂.currentVote = some round ∧
        s₂.players = s.players.map (fun p => { p with vote := none, hasVoted := some false }) ∧
        (∀ p ∈ s₂.players, p.vote = none ∧ p.hasVoted = some false) ∧
        s₂.lastActivity = 9 := by
  intro cv s
  exact startVoting_spec [("s", s)] "s" (some "issue2") "r2" 9 s rfl

/-- C7: addPlayerToSession on an existing session succeeds and refreshes
last-activity; when a participant with the same id is already in the roster
the record is replaced in place and the roster size is unchanged, else the
new record is appended; in both cases the stored record is the given player
forced online. -/
theorem addPlayerToSession_spec (m : Sessions) (sid : String) (player : Player)
    (now : Int) (s : GameSession) (hs : getSession m sid = some s) :
    (addPlayerToSession m sid player now).1 = true ∧
    ∃ s₂, getSession (addPlayerToSession m sid player now).2 sid = some s₂ ∧
      s₂.players = upsertPlayer player s.players ∧
      s₂.lastActivity = now ∧
      { player with isOnline := true } ∈ s₂.players ∧
      ((∃ p ∈ s.players, p.id = player.id) → s₂.players.length = s.players.length) ∧
      ((∀ p ∈ s.players, p.id ≠ player.id) →
        s₂.players = s.players ++ [{ player with isOnline := true }]) := by
  rw [getSession] at hs
  simp only [addPlayerToSession, hs]
  refine ⟨trivial,
    { s with players := upsertPlayer player s.players, lastActivity := now },
    ?_, rfl, rfl, upsertPlayer_mem player s.players,
    fun h => upsertPlayer_length_of_mem h,
    fun h => upsertPlayer_append_of_not_mem h⟩
  rw [getSession]
  exact alGet_alSet_self _ _ _

/-- C7 witness: rejoining with the same id and a new display name keeps the
roster size at one and stores the renamed record online. -/
theorem addPlayerToSession_spec_witness :
    let s : GameSession :=
      { id := "s", name := "Demo", facilitator := "p", votingSystem := "simple",
        players := [{ id := "p", name := "Pat", isOnline := false }],
        settings := ⟨false, true, true, true, "everyone", "facilitator"⟩,
        history := [], currentVote := none, createdAt := 0, lastActivity := 0 }
    let player : Player := { id := "p", name := "Patricia", isOnline := false }
    (addPlayerToSession [("s", s)] "s" player 9).1 = true ∧
    ∃ s₂, getSession (addPlayerToSession [("s", s)] "s" player 9).2 "s" = some s₂ ∧
      s₂.players = upsertPlayer player s.players ∧
      s₂.lastActivity = 9 ∧
      { player with isOnline := true } ∈ s₂.players ∧
      s₂.players.length = 1 := by
  intro s player
  obtain ⟨h₁, s₂, hget, hpl, hact, hmem, hlen, happ⟩ :=
    addPlayerToSession_spec [("s", s)] "s" player 9 s rfl
  refine ⟨h₁, s₂, hget, hpl, hact, hmem, ?_⟩
  have := hlen ⟨{ id := "p", name := "Pat", isOnline := false },
    List.mem_cons_self _ _, rfl⟩
  simpa using this

/-! ### cleanupInactiveSessions lemmas -/

lemma cleanupInactiveSessions_eq (m : Sessions) (now maxAge : Int) :
    cleanupInactiveSessions m now maxAge =
      ((m.filter (fun kv => decide (now - kv.2.lastActivity > maxAge))).length,
       m.filter (fun kv => !decide (now - kv.2.lastActivity > maxAge))) := by
  induction m with
  | nil => rfl
  | cons hd tl ih =>
    obtain ⟨k, s⟩ := hd
    by_cases h : now - s.lastActivity > maxAge <;>
      simp [cleanupInactiveSessions, List.filter_cons, h, ih]

lemma length_filter_add_length_filter_not {α : Type} (p : α → Bool) (l : List α) :
    (l.filter p).length + (l.filter (fun a => !(p a))).length = l.length := by
  induction l with
  | nil => rfl
  | cons hd tl ih =>
    by_cases h : p hd <;> simp [List.filter_cons, h] <;> omega

/-- C8: cleanupInactiveSessions deletes exactly the sessions whose
last-activity is older than now minus maxAge — with no condition on the
roster — and returns how many it deleted; afterwards lookup of a deleted
session is absent and every younger session is still present unchanged. -/
theorem cleanupInactiveSessions_spec (m : Sessions) (now maxAge : Int)
    (hn : (m.map Prod.fst).Nodup) :
    (cleanupInactiveSessions m now maxAge).1 =
      (m.filter (fun kv => decide (kv.2.lastActivity < now - maxAge))).length ∧
    (cleanupInactiveSessions m now maxAge).1 +
      (cleanupInactiveSessions m now maxAge).2.length = m.length ∧
    (∀ k s, getSession m k = some s → s.lastActivity < now - maxAge →
      getSession (cleanupInactiveSessions m now maxAge).2 k = none) ∧
    (∀ k s, getSession m k = some s → ¬ s.lastActivity < now - maxAge →
      getSession (cleanupInactiveSessions m now maxAge).2 k = some s) := by
  have hpred : ∀ kv : String × GameSession,
      decide (now - kv.2.lastActivity > maxAge) = decide (kv.2.lastActivity < now - maxAge) := by
    intro kv
    exact decide_eq_decide.mpr (by omega)
  refine ⟨?_, ?_, ?_, ?_⟩
  · rw [cleanupInactiveSessions_eq]
    exact congrArg List.length (List.filter_congr (fun kv _ => hpred kv))
  · rw [cleanupInactiveSessions_eq]
    exact length_filter_add_length_filter_not _ m
  · intro k s hks hold
    rw [getSession] at hks ⊢
    rw [cleanupInactiveSessions_eq]
    rw [alGet_filter _ hn k, hks]
    simp only [Bool.not_eq_eq_eq_not, Bool.not_true, decide_eq_false_iff_not]
    have : now - s.lastActivity > maxAge := by omega
    simp [this]
  · intro k s hks hyoung
    rw [getSession] at hks ⊢
    rw [cleanupInactiveSessions_eq]
    rw [alGet_filter _ hn k, hks]
    have : ¬ now - s.lastActivity > maxAge := by omega
    simp [this]

/-- C8 witness: of two sessions, the stale one is deleted and the fresh one
retained; the count is one. -/
theorem cleanupInactiveSessions_spec_witness :
    let sOld : GameSession :=
      { id := "s1", name := "Old", facilitator := "p", votingSystem := "simple",
        players := [{ id := "p", name := "Pat", isOnline := true }],
        settings := ⟨false, true, true, true, "everyone", "facilitator"⟩,
        history := [], currentVote := none, createdAt := 0, lastActivity := 0 }
    let sNew : GameSession :=
      { id := "s2", name := "New", facilitator := "q", votingSystem := "simple",
        players := [], settings := ⟨false, true, true, true, "everyone", "facilitator"⟩,
        history := [], currentVote := none, createdAt := 90, lastActivity := 90 }
    let m : Sessions := [("s1", sOld), ("s2", sNew)]
    (cleanupInactiveSessions m 100 50).1 = 1 ∧
    getSession (cleanupInactiveSessions m 100 50).2 "s1" = none ∧
    getSession (cleanupInactiveSessions m 100 50).2 "s2" = some sNew := by
  intro sOld sNew m
  obtain ⟨hcount, hsplit, hdel, hkeep⟩ :=
    cleanupInactiveSessions_spec m 100 50 (by decide)
  refine ⟨?_, ?_, ?_⟩
  · rw [hcount]; decide
  · exact hdel "s1" sOld rfl (by decide)
  · exact hkeep "s2" sNew rfl (by decide)

/-- C9: a sync_event submitted by a joined connection is broadcast so that
every open connection of that session — the sender included — receives the
event exactly once, and nothing else is sent. -/
theorem handleSyncEvent_broadcast_spec (st : ServerState) (c : String)
    (player : ConnectedPlayer) (e : Event) (isOpen : Nat → Bool)
    (now ts : Int) (fid : String)
    (hc : getConnection st.pm c = some player)
    (hn : ((getConnectionsBySession st.pm player.sessionId).map (fun p => p.ws)).Nodup) :
    (∀ q ∈ getConnectionsBySession st.pm player.sessionId, isOpen q.ws = true →
      countOcc (q.ws, OutMsg.sync_event e ts)
        (handleSyncEvent st c (some e) isOpen now ts fid).2 = 1) ∧
    (isOpen player.ws = true →
      countOcc (player.ws, OutMsg.sync_event e ts)
        (handleSyncEvent st c (some e) isOpen now ts fid).2 = 1) ∧
    (∀ x ∈ (handleSyncEvent st c (some e) isOpen now ts fid).2,
      ∃ q, q ∈ getConnectionsBySession st.pm player.sessionId ∧ isOpen q.ws = true ∧
        x = (q.ws, OutMsg.sync_event e ts)) := by
  have hsends : (handleSyncEvent st c (some e) isOpen now ts fid).2 =
      (getConnectionsBySession st.pm player.sessionId).filterMap
        (sendTo isOpen (OutMsg.sync_event e ts)) := by
    simp only [handleSyncEvent, hc]
    exact broadcastToSession_none _ _ _ _
  have hmem : player ∈ getConnectionsBySession st.pm player.sessionId := by
    unfold getConnectionsBySession
    refine List.mem_filter.mpr ⟨?_, by simp⟩
    exact List.mem_map.mpr ⟨(c, player), alGet_mem hc, rfl⟩
  refine ⟨fun q hq ho => ?_, fun ho => ?_, fun x hx => ?_⟩
  · rw [hsends]
    exact countOcc_sendList hn hq ho
  · rw [hsends]
    exact countOcc_sendList hn hmem ho
  · rw [hsends] at hx
    exact mem_sendList hx

/-- C9 witness: with two open connections in the session, both the sender and
the other connection receive the vote event exactly once. -/
theorem handleSyncEvent_broadcast_spec_witness :
    let p₁ : ConnectedPlayer :=
      { ws := 1, sessionId := "s", userId := "u1", userName := "A", lastHeartbeat := 0 }
    let p₂ : ConnectedPlayer :=
      { ws := 2, sessionId := "s", userId := "u2", userName := "B", lastHeartbeat := 0 }
    let st : ServerState :=
      { pm := { connections := [("c1", p₁), ("c2", p₂)],
                userToConnection := [("s:u1", "c1"), ("s:u2", "c2")] },
        sm := [] }
    let e : Event := Event.VOTE_SUBMITTED "u1" (Vote.num 3)
    countOcc (1, OutMsg.sync_event e 5)
      (handleSyncEvent st "c1" (some e) (fun _ => true) 4 5 "rid").2 = 1 ∧
    countOcc (2, OutMsg.sync_event e 5)
      (handleSyncEvent st "c1" (some e) (fun _ => true) 4 5 "rid").2 = 1 := by
  intro p₁ p₂ st e
  have h := handleSyncEvent_broadcast_spec st "c1" p₁ e (fun _ => true) 4 5 "rid"
    rfl (by decide)
  exact ⟨h.2.1 rfl, h.1 p₂ (by decide) rfl⟩

/-- Iterated reveal: n successive revealVotes calls on the same session. -/
def revealN (m : Sessions) (sid : String) (now : Int) : Nat → Sessions
  | 0 => m
  | n + 1 => (revealVotes (revealN m sid now n) sid now).2

/-- C10: revealVotes is not guarded on the revealed flag: starting from a
session with a current round, every one of n successive reveal calls
succeeds (the round stays current, already revealed after the first call)
and each appends another round copy, so the history grows by exactly n. -/
theorem revealVotes_history_growth (m : Sessions) (sid : String) (now : Int)
    (s : GameSession) (cv : VotingRound)
    (hs : getSession m sid = some s) (hcv : s.currentVote = some cv) :
    ∀ n, ∃ s₂ cv₂, getSession (revealN m sid now n) sid = some s₂ ∧
      s₂.currentVote = some cv₂ ∧
      s₂.history.length = s.history.length + n ∧
      (revealVotes (revealN m sid now n) sid now).1 = true ∧
      (1 ≤ n → cv₂.isRevealed = true) := by
  rw [getSession] at hs
  intro n
  induction n with
  | zero =>
    refine ⟨s, cv, hs, hcv, by simp, ?_, by omega⟩
    obtain ⟨cv₂, heq, _⟩ := revealVotes_step m sid now s cv hs hcv
    simp [revealN, heq]
  | succ k ih =>
    obtain ⟨s₂, cv₂, hget, hcv₂, hlen, htrue, _⟩ := ih
    rw [getSession] at hget
    obtain ⟨cv₃, heq, hrev, _⟩ :=
      revealVotes_step (revealN m sid now k) sid now s₂ cv₂ hget hcv₂
    have hget₃ : alGet sid (revealN m sid now (k + 1)) =
        some { s₂ with currentVote := some cv₃, history := s₂.history ++ [cv₃], lastActivity := now } := by
      show alGet sid (revealVotes (revealN m sid now k) sid now).2 = _
      rw [heq]
      exact alGet_alSet_self _ _ _
    refine ⟨{ s₂ with currentVote := some cv₃, history := s₂.history ++ [cv₃], lastActivity := now },
      cv₃, hget₃, rfl, ?_, ?_, fun _ => hrev⟩
    · simp only [List.length_append, List.length_cons, List.length_nil, hlen]
      omega
    · obtain ⟨cv₄, heq₄, _⟩ := revealVotes_step (revealN m sid now (k + 1)) sid now
        { s₂ with currentVote := some cv₃, history := s₂.history ++ [cv₃], lastActivity := now }
        cv₃ hget₃ rfl
      simp [heq₄]

/-- C10 witness: two consecutive reveals on a session with one fresh round
both succeed and leave two history entries. -/
theorem revealVotes_history_growth_witness :
    let cv : VotingRound :=
      { id := "r1", issueName := none, votes := [("A", Vote.num 2)],
        startTime := 0, isRevealed := false }
    let s : GameSession :=
      { id := "s", name := "Demo", facilitator := "A", votingSystem := "simple",
        players := [{ id := "A", name := "Alice", isOnline := true }],
        settings := ⟨false, true, true, true, "everyone", "facilitator"⟩,
        history := [], currentVote := some cv, createdAt := 0, lastActivity := 0 }
    ∃ s₂ cv₂, getSession (revealN [("s", s)] "s" 9 2) "s" = some s₂ ∧
      s₂.currentVote = some cv₂ ∧
      s₂.history.length = 2 ∧
      (revealVotes (revealN [("s", s)] "s" 9 2) "s" 9).1 = true ∧
      cv₂.isRevealed = true := by
  intro cv s
  obtain ⟨s₂, cv₂, hget, hcv₂, hlen, htrue, hrev⟩ :=
    revealVotes_history_growth [("s", s)] "s" 9 s cv rfl rfl 2
  exact ⟨s₂, cv₂, hget, hcv₂, by simpa using hlen, htrue, hrev (by omega)⟩

end Pocker
